import Mathlib

/-!
Verification of the DiffiT reimplementation (`src/image_diffit.py`).

The tensor model is a shallow embedding: a tensor of each rank is a record of
its dimension sizes together with a total indexing function into `ℚ`.
PyTorch reads only in-range positions (out-of-range coordinates are padded
with zeros where convolution padding applies), so the values of the indexing
function outside the declared extent are irrelevant to every operation
defined below.

Real-valued scalar primitives that have no exact rational form (the sigmoid
inside SiLU and the reciprocal square root inside group normalisation) are
abstracted as fields of `Prim`; every theorem in this file holds for all
instantiations of them, which is exactly the generality the properties have
in the source.

Python runtime failures are modelled with `Except PErr`; the error names
follow the specification's taxonomy (`configurationError` for the
construction-time `assert`s the spec calls ConfigurationError,
`shapeMismatchError` for runtime shape violations) plus the concrete Python
exceptions the source can raise (`typeError`, `attributeError`, ...).
-/

/-- Runtime failure kinds of the embedded program. `configurationError`
models the construction-time divisibility `assert`s (the spec's
ConfigurationError); `shapeMismatchError` models runtime tensor-shape
failures (the spec's ShapeMismatchError); `typeError`, `valueError`,
`attributeError` and `zeroDivisionError` model the corresponding Python
exceptions; `valueDomainError` models an embedding lookup with a label
index out of range (the spec's ValueDomainError). -/
inductive PErr where
  | configurationError
  | shapeMismatchError
  | typeError
  | valueError
  | attributeError
  | zeroDivisionError
  | valueDomainError
deriving DecidableEq, Repr

/-- Rank-4 tensor `(n, c, h, w)`: batch, channels, height, width. -/
structure T4 where
  n : Nat
  c : Nat
  h : Nat
  w : Nat
  at4 : Nat → Nat → Nat → Nat → ℚ

/-- Rank-3 tensor `(n, t, d)`: batch, tokens, token dimension. -/
structure T3 where
  n : Nat
  t : Nat
  d : Nat
  at3 : Nat → Nat → Nat → ℚ

/-- Rank-2 tensor `(n, d)`: batch, feature dimension. -/
structure T2 where
  n : Nat
  d : Nat
  at2 : Nat → Nat → ℚ

/-- Rank-1 rational tensor `(n,)` (diffusion timesteps). -/
structure T1q where
  n : Nat
  at1 : Nat → ℚ

/-- Rank-1 integer tensor `(n,)` (class labels). -/
structure I1 where
  n : Nat
  at1 : Nat → Nat

/-- Abstract real-valued scalar primitives: `sigmoid` models the logistic
function used by SiLU, `rsqrt` models `1 / sqrt (· + eps)` used by group
normalisation.  Both are irrational in general, so they are kept as
parameters; all theorems hold for every choice. -/
structure Prim where
  sigmoid : ℚ → ℚ
  rsqrt : ℚ → ℚ

/-- Zero-padded read used by convolution: positions outside the spatial
extent read as `0`. -/
def T4.getP (x : T4) (b c : Nat) (i j : Int) : ℚ :=
  if 0 ≤ i ∧ i < (x.h : Int) ∧ 0 ≤ j ∧ j < (x.w : Int) then
    x.at4 b c i.toNat j.toNat
  else 0

/-- Broadcast of one dimension pair, PyTorch semantics: equal sizes, or one
of them is `1`. -/
def bcastDim (a b : Nat) : Option Nat :=
  if a = b then some a else if a = 1 then some b else if b = 1 then some a else none

/-- Index adjustment for a broadcast operand. -/
def bidx (size idx : Nat) : Nat := if size = 1 then 0 else idx

/-- Elementwise addition of rank-4 tensors with PyTorch broadcasting;
incompatible shapes raise (`RuntimeError` in torch, the spec's
ShapeMismatchError). -/
def T4.addB (a b : T4) : Except PErr T4 :=
  match bcastDim a.n b.n, bcastDim a.c b.c, bcastDim a.h b.h, bcastDim a.w b.w with
  | some n, some c, some h, some w =>
      .ok ⟨n, c, h, w, fun bb cc i j =>
        a.at4 (bidx a.n bb) (bidx a.c cc) (bidx a.h i) (bidx a.w j)
        + b.at4 (bidx b.n bb) (bidx b.c cc) (bidx b.h i) (bidx b.w j)⟩
  | _, _, _, _ => .error .shapeMismatchError

/-- Elementwise addition of rank-3 tensors with broadcasting (used for the
positional-table add, whose table has batch dimension `1`). -/
def T3.addB (a b : T3) : Except PErr T3 :=
  match bcastDim a.n b.n, bcastDim a.t b.t, bcastDim a.d b.d with
  | some n, some t, some d =>
      .ok ⟨n, t, d, fun bb tt dd =>
        a.at3 (bidx a.n bb) (bidx a.t tt) (bidx a.d dd)
        + b.at3 (bidx b.n bb) (bidx b.t tt) (bidx b.d dd)⟩
  | _, _, _ => .error .shapeMismatchError

/-- Elementwise addition of rank-2 tensors with broadcasting (timestep
embedding + label embedding). -/
def T2.addB (a b : T2) : Except PErr T2 :=
  match bcastDim a.n b.n, bcastDim a.d b.d with
  | some n, some d =>
      .ok ⟨n, d, fun bb dd =>
        a.at2 (bidx a.n bb) (bidx a.d dd) + b.at2 (bidx b.n bb) (bidx b.d dd)⟩
  | _, _ => .error .shapeMismatchError

/-- `torch.cat([a, b], dim=0)`: all non-batch dimensions must agree. -/
def T4.cat0 (a b : T4) : Except PErr T4 :=
  if a.c = b.c ∧ a.h = b.h ∧ a.w = b.w then
    .ok ⟨a.n + b.n, a.c, a.h, a.w, fun bb c i j =>
      if bb < a.n then a.at4 bb c i j else b.at4 (bb - a.n) c i j⟩
  else .error .shapeMismatchError

/-- `torch.cat([a, b], dim=1)`: all non-channel dimensions must agree. -/
def T4.cat1 (a b : T4) : Except PErr T4 :=
  if a.n = b.n ∧ a.h = b.h ∧ a.w = b.w then
    .ok ⟨a.n, a.c + b.c, a.h, a.w, fun bb c i j =>
      if c < a.c then a.at4 bb c i j else b.at4 bb (c - a.c) i j⟩
  else .error .shapeMismatchError

/-- `x[:, lo:hi]`: channel slice with Python clamping semantics. -/
def T4.sliceC (x : T4) (lo hi : Nat) : T4 :=
  let hi' := min hi x.c
  let lo' := min lo hi'
  ⟨x.n, hi' - lo', x.h, x.w, fun b c i j => x.at4 b (lo' + c) i j⟩

/-- `x[lo:hi]`: batch slice with Python clamping semantics. -/
def T4.sliceN (x : T4) (lo hi : Nat) : T4 :=
  let hi' := min hi x.n
  let lo' := min lo hi'
  ⟨hi' - lo', x.c, x.h, x.w, fun b c i j => x.at4 (lo' + b) c i j⟩

/-- `torch.cat([x, x], dim=0)` as a total function (self-concatenation is
always shape-compatible). -/
def T4.dup0 (x : T4) : T4 :=
  ⟨x.n + x.n, x.c, x.h, x.w, fun b c i j =>
    if b < x.n then x.at4 b c i j else x.at4 (b - x.n) c i j⟩

/-- Concatenation of rank-1 rational tensors. -/
def T1q.cat (a b : T1q) : T1q :=
  ⟨a.n + b.n, fun i => if i < a.n then a.at1 i else b.at1 (i - a.n)⟩

/-- Concatenation of rank-1 integer tensors. -/
def I1.cat (a b : I1) : I1 :=
  ⟨a.n + b.n, fun i => if i < a.n then a.at1 i else b.at1 (i - a.n)⟩

theorem T4.cat0_self (x : T4) : T4.cat0 x x = .ok x.dup0 := by
  simp [T4.cat0, T4.dup0]

/-- Weights and static attributes of an `nn.Conv2d(inC, outC, k, stride, pad)`.
`weight` is indexed `(out-channel, in-channel, kernel-row, kernel-col)`. -/
structure Conv2dW where
  inC : Nat
  outC : Nat
  k : Nat
  stride : Nat
  pad : Nat
  weight : Nat → Nat → Nat → Nat → ℚ
  bias : Nat → ℚ

/-- Spatial output size of a convolution: `(h + 2·pad - k) / stride + 1`. -/
def convOutDim (h k s p : Nat) : Nat := (h + 2 * p - k) / s + 1

/-- The convolution computation (shape checks live in `Conv2dW.forward`). -/
def Conv2dW.core (cw : Conv2dW) (x : T4) : T4 :=
  { n := x.n, c := cw.outC,
    h := convOutDim x.h cw.k cw.stride cw.pad,
    w := convOutDim x.w cw.k cw.stride cw.pad,
    at4 := fun b oc i j =>
      cw.bias oc +
      ∑ ic ∈ Finset.range cw.inC, ∑ ki ∈ Finset.range cw.k, ∑ kj ∈ Finset.range cw.k,
        cw.weight oc ic ki kj *
          x.getP b ic ((i * cw.stride + ki : Int) - cw.pad)
                      ((j * cw.stride + kj : Int) - cw.pad) }

/-- `nn.Conv2d` forward: requires the input channel count to match and the
padded spatial extent to cover the kernel (torch raises otherwise). -/
def Conv2dW.forward (cw : Conv2dW) (x : T4) : Except PErr T4 :=
  if x.c ≠ cw.inC then .error .shapeMismatchError
  else if x.h + 2 * cw.pad < cw.k ∨ x.w + 2 * cw.pad < cw.k then .error .shapeMismatchError
  else .ok (cw.core x)

/-- Weights of an `nn.ConvTranspose2d(inC, outC, k, stride, pad)`.
`weight` is indexed `(in-channel, out-channel, kernel-row, kernel-col)`. -/
structure ConvT2dW where
  inC : Nat
  outC : Nat
  k : Nat
  stride : Nat
  pad : Nat
  weight : Nat → Nat → Nat → Nat → ℚ
  bias : Nat → ℚ

/-- Spatial output size of a transposed convolution:
`(h - 1)·stride + k - 2·pad`. -/
def convTOutDim (h k s p : Nat) : Nat := (h - 1) * s + k - 2 * p

/-- The transposed-convolution computation: output position `(i, j)` gathers
input positions `(ti / s, tj / s)` with `ti = i + pad - ki` whenever the
offsets are non-negative multiples of the stride in range. -/
def ConvT2dW.core (tw : ConvT2dW) (x : T4) : T4 :=
  { n := x.n, c := tw.outC,
    h := convTOutDim x.h tw.k tw.stride tw.pad,
    w := convTOutDim x.w tw.k tw.stride tw.pad,
    at4 := fun b oc i j =>
      tw.bias oc +
      ∑ ic ∈ Finset.range tw.inC, ∑ ki ∈ Finset.range tw.k, ∑ kj ∈ Finset.range tw.k,
        (let ti : Int := (i : Int) + tw.pad - ki
         let tj : Int := (j : Int) + tw.pad - kj
         if 0 ≤ ti ∧ 0 ≤ tj ∧ ti % tw.stride = 0 ∧ tj % tw.stride = 0 ∧
            ti / tw.stride < (x.h : Int) ∧ tj / tw.stride < (x.w : Int) then
           tw.weight ic oc ki kj * x.at4 b ic (ti / tw.stride).toNat (tj / tw.stride).toNat
         else 0) }

/-- `nn.ConvTranspose2d` forward with its channel-count check. -/
def ConvT2dW.forward (tw : ConvT2dW) (x : T4) : Except PErr T4 :=
  if x.c ≠ tw.inC then .error .shapeMismatchError
  else .ok (tw.core x)

/-- Weights of an `nn.GroupNorm(num_groups, num_channels)`. -/
structure GroupNormW where
  num_groups : Nat
  num_channels : Nat
  gamma : Nat → ℚ
  beta : Nat → ℚ

/-- Group normalisation: each (batch, group) slab is shifted by its mean and
scaled by `rsqrt (variance + eps)` (the irrational reciprocal square root is
`Prim.rsqrt`), then per-channel affine parameters are applied.
`eps = 1e-5` as in torch. -/
def GroupNormW.core (p : Prim) (gw : GroupNormW) (x : T4) : T4 :=
  let gsize := gw.num_channels / gw.num_groups
  let cnt : ℚ := ((gsize * x.h * x.w : Nat) : ℚ)
  { x with at4 := fun b c i j =>
      let g := c / gsize
      let mean : ℚ :=
        (∑ cc ∈ Finset.range gsize, ∑ ii ∈ Finset.range x.h, ∑ jj ∈ Finset.range x.w,
          x.at4 b (g * gsize + cc) ii jj) / cnt
      let var : ℚ :=
        (∑ cc ∈ Finset.range gsize, ∑ ii ∈ Finset.range x.h, ∑ jj ∈ Finset.range x.w,
          (x.at4 b (g * gsize + cc) ii jj - mean) ^ 2) / cnt
      (x.at4 b c i j - mean) * p.rsqrt (var + 1 / 100000) * gw.gamma c + gw.beta c }

/-- `nn.GroupNorm` forward with its channel-count check. -/
def GroupNormW.forward (p : Prim) (gw : GroupNormW) (x : T4) : Except PErr T4 :=
  if x.c ≠ gw.num_channels then .error .shapeMismatchError
  else .ok (gw.core p x)

/-- `nn.SiLU`: pointwise `v * sigmoid v` with the abstract sigmoid. -/
def siluT4 (p : Prim) (x : T4) : T4 :=
  { x with at4 := fun b c i j => x.at4 b c i j * p.sigmoid (x.at4 b c i j) }

/-- Weights and static attributes of a timm `PatchEmbed(img_size, patch_size,
in_chans, embed_dim)`: a `patch_size`-strided projection of each
non-overlapping patch followed by flattening to `(batch, num_patches,
embed_dim)`. -/
structure PatchEmbedW where
  img_size : Nat
  patch_size : Nat
  inC : Nat
  hidden : Nat
  projW : Nat → Nat → Nat → Nat → ℚ
  projB : Nat → ℚ

/-- Patches per side: `img_size / patch_size` (floor, as in timm). -/
def PatchEmbedW.grid (pe : PatchEmbedW) : Nat := pe.img_size / pe.patch_size

/-- `grid²` patch tokens. -/
def PatchEmbedW.num_patches (pe : PatchEmbedW) : Nat := pe.grid * pe.grid

/-- The patch-projection computation: token `tk` covers the patch at grid
coordinates `(tk / grid, tk % grid)`. -/
def PatchEmbedW.core (pe : PatchEmbedW) (x : T4) : T3 :=
  { n := x.n, t := pe.num_patches, d := pe.hidden,
    at3 := fun b tk dd =>
      pe.projB dd +
      ∑ ic ∈ Finset.range pe.inC, ∑ pi ∈ Finset.range pe.patch_size,
        ∑ pj ∈ Finset.range pe.patch_size,
        pe.projW dd ic pi pj *
          x.at4 b ic ((tk / pe.grid) * pe.patch_size + pi)
                     ((tk % pe.grid) * pe.patch_size + pj) }

/-- timm `PatchEmbed` forward: asserts the spatial extent equals the
configured `img_size` and the channel count matches. -/
def PatchEmbedW.forward (pe : PatchEmbedW) (x : T4) : Except PErr T3 :=
  if x.h ≠ pe.img_size ∨ x.w ≠ pe.img_size then .error .shapeMismatchError
  else if x.c ≠ pe.inC then .error .shapeMismatchError
  else .ok (pe.core x)

/-- Raw weight sources consumed by `DiffiTResBlock.initPy`.  Initialization
policy is out of scope of the specification, so these are arbitrary
functions.  The last three fields stand for collaborators whose code is not
under `src/`:

* `pos` — Modelled from the spec: output of the Sinusoidal Position Table
  Generator (`get_2d_sincos_pos_embed`, module `modeltocopy` absent from
  `src/`), a pure function of grid side and embedding width.
* `diffit` — Modelled from the spec: the Conditioned Token Mixer
  (`DiffTBlock`, module `diffit` absent from `src/`), an opaque operator
  `(tokens, conditioning) → tokens` of the same shape.
* `final` — Modelled from the spec: the Output Projection Layer
  (`FinalLayer`, module `diffit` absent from `src/`), mapping mixed tokens
  to per-patch pixel values `(batch, num_patches, patch_size² · channels)`.

The shape contracts of `diffit` and `final` are stated as hypotheses of the
theorems that need them, never baked into the definitions. -/
structure BlockWeights where
  convW : Nat → Nat → Nat → Nat → ℚ
  convB : Nat → ℚ
  gnGamma : Nat → ℚ
  gnBeta : Nat → ℚ
  embW : Nat → Nat → Nat → Nat → ℚ
  embB : Nat → ℚ
  pos : Nat → Nat → ℚ
  diffit : T3 → T2 → T3
  final : T3 → T3

/-- The hybrid residual block (`DiffiTResBlock`), holding exactly the
sub-modules its `__init__` assigns. -/
structure DiffiTResBlock where
  channels : Nat
  groupNorm : GroupNormW
  conv2d : Conv2dW
  diffit : T3 → T2 → T3
  x_embedder : PatchEmbedW
  patch_size : Nat
  num_patches : Nat
  pos_embed : T3
  final : T3 → T3

/-- A Python value as it can flow into `DiffiTResBlock.__init__`: either an
integer or a `DiffiTResBlock` module (the latter is what
`DiffiTSequential.all_equals` actually passes, source line 177). -/
inductive PyVal where
  | nat (v : Nat)
  | blk (b : DiffiTResBlock)

/-- Using a value where an `int` is required: a module raises `TypeError`. -/
def PyVal.toNat : PyVal → Except PErr Nat
  | .nat v => .ok v
  | .blk _ => .error .typeError

/-- Python `%` on the argument values: defined for two ints (with
`ZeroDivisionError` on a zero modulus); an `nn.Module` operand raises
`TypeError`. -/
def pymod : PyVal → PyVal → Except PErr Nat
  | .nat a, .nat b => if b = 0 then .error .zeroDivisionError else .ok (a % b)
  | _, _ => .error .typeError

/-- `DiffiTResBlock.__init__` (source lines 89–104) under Python dynamic
typing, statement by statement:

1. `assert hidden_size % num_heads == 0` (the spec's ConfigurationError);
2. `assert channels % num_groups == 0`;
3. `nn.GroupNorm(num_groups, channels)`, `nn.SiLU()`,
   `nn.Conv2d(channels, channels, 3, 1, 1)`,
   `DiffTBlock(hidden_size, num_heads)` — these need the integer values;
4. `PatchEmbed(img_size, patch_size, channels, hidden_size)` — timm divides
   `img_size // patch_size`, so a module there raises `TypeError`;
5. `pos_embed` is a frozen `(1, num_patches, hidden_size)` table and
   `final = FinalLayer(hidden_size, patch_size, channels)`.

`num_heads` is consumed only by the opaque `DiffTBlock`. -/
def DiffiTResBlock.initPy (img_size num_heads patch_size hidden_size channels num_groups :
    PyVal) (ws : BlockWeights) : Except PErr DiffiTResBlock := do
  let r1 ← pymod hidden_size num_heads
  if r1 ≠ 0 then .error .configurationError else do
  let r2 ← pymod channels num_groups
  if r2 ≠ 0 then .error .configurationError else do
  let g ← num_groups.toNat
  let ch ← channels.toNat
  let hs ← hidden_size.toNat
  let _nh ← num_heads.toNat
  let is ← img_size.toNat
  let p ← patch_size.toNat
  let emb : PatchEmbedW := ⟨is, p, ch, hs, ws.embW, ws.embB⟩
  .ok { channels := ch,
        groupNorm := ⟨g, ch, ws.gnGamma, ws.gnBeta⟩,
        conv2d := ⟨ch, ch, 3, 1, 1, ws.convW, ws.convB⟩,
        diffit := ws.diffit,
        x_embedder := emb,
        patch_size := p,
        num_patches := emb.num_patches,
        pos_embed := ⟨1, emb.num_patches, hs, fun _ => ws.pos⟩,
        final := ws.final }

/-- `DiffiTResBlock(...)` called with integer arguments, as every in-repo
caller intends. -/
def DiffiTResBlock.init (img_size num_heads patch_size hidden_size channels num_groups :
    Nat) (ws : BlockWeights) : Except PErr DiffiTResBlock :=
  DiffiTResBlock.initPy (.nat img_size) (.nat num_heads) (.nat patch_size)
    (.nat hidden_size) (.nat channels) (.nat num_groups) ws

/-- `DiffiTResBlock.unpatchify` (source lines 125–139):
`h = w = int(sqrt(T))`, `assert h * w == T`, then two reshapes and a
transposition rebuild `(batch, channels, h·p, h·p)`.  The second guard is
torch's element-count check for `reshape(B, h, w, p, p, c)`. -/
def DiffiTResBlock.unpatchify (blk : DiffiTResBlock) (x : T3) : Except PErr T4 :=
  let c := blk.channels
  let p := blk.x_embedder.patch_size
  let h := Nat.sqrt x.t
  if h * h ≠ x.t then .error .shapeMismatchError
  else if x.t * x.d ≠ h * h * p * p * c then .error .shapeMismatchError
  else .ok
    { n := x.n, c := c, h := h * p, w := h * p,
      at4 := fun b cc i j =>
        x.at3 b ((i / p) * h + j / p) (((i % p) * p + j % p) * c + cc) }

/-- `DiffiTResBlock.forward` (source lines 141–154):
`x' = conv2d(swish(groupNorm(x)))`, patchify `x'` and add the positional
table, mix tokens with the conditioning vector, project, unpatchify, and add
the residual against `x'`. -/
def DiffiTResBlock.forward (blk : DiffiTResBlock) (p : Prim) (x : T4) (c : T2) :
    Except PErr T4 := do
  let xg ← blk.groupNorm.forward p x
  let xconv ← blk.conv2d.forward (siluT4 p xg)
  let xp0 ← blk.x_embedder.forward xconv
  let x_patched ← xp0.addB blk.pos_embed
  let u ← blk.unpatchify (blk.final (blk.diffit x_patched c))
  u.addB xconv

/-- `DiffiTSequential`: a container of blocks applied in order. -/
structure DiffiTSequential where
  blocks : List DiffiTResBlock

/-- `DiffiTSequential.forward` (source lines 179–188): fold the blocks over
the feature map, each receiving the same conditioning vector. -/
def DiffiTSequential.forward (sq : DiffiTSequential) (p : Prim) (x : T4) (c : T2) :
    Except PErr T4 :=
  sq.blocks.foldlM (fun acc blk => blk.forward p acc c) x

/-- Evaluate a constructor expression `n` times, collecting the results
(the list comprehension in `all_equals`). -/
def listInitM (n : Nat) (e : Except PErr DiffiTResBlock) :
    Except PErr (List DiffiTResBlock) :=
  match n with
  | 0 => .ok []
  | k + 1 => do
    let b ← e
    let bs ← listInitM k e
    .ok (b :: bs)

/-- `DiffiTSequential.all_equals` (source lines 169–177).  The source builds
`n` identically configured blocks and then evaluates
`DiffiTResBlock(*[...])` — not `DiffiTSequential(*[...])` as its docstring
promises — so the fresh blocks are bound positionally to
`DiffiTResBlock.__init__`'s integer parameters `(img_size, num_heads,
patch_size, hidden_size, channels, num_groups)`, with source-level defaults
`16, 2, 1152, 128, 8` filling the tail.  Zero blocks miss the required
`img_size`; more than six exceed the arity; both raise `TypeError`. -/
def DiffiTSequential.all_equals (n img_size num_heads patch_size hidden_size channels
    num_groups : Nat) (ws : BlockWeights) : Except PErr DiffiTResBlock := do
  let bs ← listInitM n
    (DiffiTResBlock.init img_size num_heads patch_size hidden_size channels num_groups ws)
  match bs with
  | [] => .error .typeError
  | [b1] =>
      DiffiTResBlock.initPy (.blk b1) (.nat 16) (.nat 2) (.nat 1152) (.nat 128) (.nat 8) ws
  | [b1, b2] =>
      DiffiTResBlock.initPy (.blk b1) (.blk b2) (.nat 2) (.nat 1152) (.nat 128) (.nat 8) ws
  | [b1, b2, b3] =>
      DiffiTResBlock.initPy (.blk b1) (.blk b2) (.blk b3) (.nat 1152) (.nat 128) (.nat 8) ws
  | [b1, b2, b3, b4] =>
      DiffiTResBlock.initPy (.blk b1) (.blk b2) (.blk b3) (.blk b4) (.nat 128) (.nat 8) ws
  | [b1, b2, b3, b4, b5] =>
      DiffiTResBlock.initPy (.blk b1) (.blk b2) (.blk b3) (.blk b4) (.blk b5) (.nat 8) ws
  | [b1, b2, b3, b4, b5, b6] =>
      DiffiTResBlock.initPy (.blk b1) (.blk b2) (.blk b3) (.blk b4) (.blk b5) (.blk b6) ws
  | _ => .error .typeError

/-- `Tokenizer.__init__` (source lines 21–27): a single
`nn.Conv2d(in_channels, out_channels, 3, 1, 1)`; its forward is the
convolution itself. -/
def Tokenizer.init (in_channels out_channels : Nat) (w : Nat → Nat → Nat → Nat → ℚ)
    (b : Nat → ℚ) : Conv2dW :=
  ⟨in_channels, out_channels, 3, 1, 1, w, b⟩

/-- The head module: `nn.GroupNorm` followed by `nn.Conv2d`. -/
structure HeadW where
  groupNorm : GroupNormW
  conv2d : Conv2dW

/-- `Head.__init__` (source lines 49–59): asserts
`in_channels % num_groups == 0` (the spec's ConfigurationError), then builds
the normalisation and the 3×3 same-padding convolution. -/
def Head.init (in_channels out_channels num_groups : Nat)
    (gGamma gBeta : Nat → ℚ) (cW : Nat → Nat → Nat → Nat → ℚ) (cB : Nat → ℚ) :
    Except PErr HeadW :=
  if num_groups = 0 then .error .zeroDivisionError
  else if in_channels % num_groups ≠ 0 then .error .configurationError
  else .ok ⟨⟨num_groups, in_channels, gGamma, gBeta⟩,
            ⟨in_channels, out_channels, 3, 1, 1, cW, cB⟩⟩

/-- `Head.forward` (source lines 61–68): group-normalise, then convolve. -/
def HeadW.forward (p : Prim) (hw : HeadW) (x : T4) : Except PErr T4 := do
  let xg ← hw.groupNorm.forward p x
  hw.conv2d.forward xg

/-- Modelled from the spec: the Timestep Embedder (`TimestepEmbedder`,
module `diffit` absent from `src/`) is per §6 a deterministic function
`t (batch,) → (batch, hidden_size)` given its internal weights; it is kept
as an opaque function. -/
structure TimestepEmbedder where
  hidden_size : Nat
  emb : T1q → T2

/-- Modelled from the spec: the Label Embedder (`LabelEmbedder`, module
`utils.embedders` absent from `src/`) holds a table of `num_classes + 1`
embedding rows (the extra row is the Null Label Token). -/
structure LabelEmbedder where
  num_classes : Nat
  hidden_size : Nat
  dropout_prob : ℚ
  table : Nat → Nat → ℚ

/-- Modelled from the spec (§6): the label actually embedded for batch
element `b` — during training, with a positive dropout probability, the
stochastic draw `rng b` may remap it to the Null Label Token
`num_classes`; otherwise the given label is used unchanged. -/
def LabelEmbedder.effLabel (le : LabelEmbedder) (train : Bool) (rng : Nat → Bool)
    (y : I1) (b : Nat) : Nat :=
  if train && rng b && decide (0 < le.dropout_prob) then le.num_classes else y.at1 b

/-- Modelled from the spec (§6, §7): the Label Embedder forward; a label
index outside `[0, num_classes]` raises the spec's ValueDomainError, else
each effective label is looked up in the table. -/
def LabelEmbedder.forward (le : LabelEmbedder) (y : I1) (train : Bool)
    (rng : Nat → Bool) : Except PErr T2 :=
  if (List.range y.n).any (fun b => decide (le.num_classes < le.effLabel train rng y b)) then
    .error .valueDomainError
  else .ok ⟨y.n, le.hidden_size, fun b d => le.table (le.effLabel train rng y b) d⟩

/-- Raw weight sources for the `ImageDiffiT` assembly's own layers (the
tokenizer, the resolution transitions, the head and the two embedders);
initialization policy is out of scope, so these are arbitrary. `temb` is
the opaque Timestep Embedder function and `ltable` the label-embedding
table, both modelled from the spec (§6). -/
structure NetWeights where
  tokW : Nat → Nat → Nat → Nat → ℚ
  tokB : Nat → ℚ
  temb : T1q → T2
  ltable : Nat → Nat → ℚ
  downW : Nat → Nat → Nat → Nat → ℚ
  downB : Nat → ℚ
  upW : Nat → Nat → Nat → Nat → ℚ
  upB : Nat → ℚ
  headGamma : Nat → ℚ
  headBeta : Nat → ℚ
  headW : Nat → Nat → Nat → Nat → ℚ
  headB : Nat → ℚ

/-- The attributes `ImageDiffiT.__init__` actually assigns (source lines
217–248).  Note the stack fields: `resBlock2` is the only name that lines
236, 238 and 240 all write to (its final value is the level-4 bottleneck
stack), and — because `DiffiTSequential.all_equals` mis-constructs — every
stack field holds a `DiffiTResBlock`, not a `DiffiTSequential`. -/
structure ImageDiffiT where
  num_classes : Nat
  tokenizer : Conv2dW
  t_embedder : TimestepEmbedder
  y_embedder : LabelEmbedder
  resBlock1 : DiffiTResBlock
  downsample_1 : Conv2dW
  resBlock2 : DiffiTResBlock
  downsample_2 : Conv2dW
  downsample_3 : Conv2dW
  upsample_1 : ConvT2dW
  resBlock3up : DiffiTResBlock
  upsample_2 : ConvT2dW
  resBlock2up : DiffiTResBlock
  upsample_3 : ConvT2dW
  resBlock1Up : DiffiTResBlock
  head : HeadW

/-- Divisibility `assert` on two ints (source lines 218–219). -/
def natAssertDiv (a b : Nat) : Except PErr Unit :=
  if b = 0 then .error .zeroDivisionError
  else if a % b ≠ 0 then .error .configurationError
  else .ok ()

/-- `ImageDiffiT.__init__` (source lines 217–248), statement by statement:
the two divisibility asserts, the tokenizer, the two embedders, then the
per-level stacks via `DiffiTSequential.all_equals` (level 1 uses one
normalisation group, inner levels the configured count, spatial sizes
`img_size, img_size/2, img_size/4, img_size/8`) interleaved with the
stride-2 downsampling and stride-2 transposed-convolution upsampling
transitions, and finally `self.head = Head()` with all-default parameters.
Lines 236, 238 and 240 all assign `self.resBlock2`; `resBlock3` and
`resBlock4` are never assigned (see `ImageDiffiT.assignedStackAttrs`). -/
def ImageDiffiT.init (img_size l1 l2 l3 l4 patch_size num_classes : Nat)
    (class_dropout_prob : ℚ) (hidden_size channels hidden_channels num_heads
    num_groups : Nat) (ws : BlockWeights) (nws : NetWeights) :
    Except PErr ImageDiffiT := do
  let _ ← natAssertDiv hidden_size num_heads
  let _ ← natAssertDiv hidden_channels num_groups
  let tokenizer := Tokenizer.init channels hidden_channels nws.tokW nws.tokB
  let t_embedder : TimestepEmbedder := ⟨hidden_size, nws.temb⟩
  let y_embedder : LabelEmbedder := ⟨num_classes, hidden_size, class_dropout_prob, nws.ltable⟩
  let resBlock1 ← DiffiTSequential.all_equals l1 img_size num_heads patch_size
    hidden_size hidden_channels 1 ws
  let downsample_1 : Conv2dW := ⟨hidden_channels, hidden_channels, 3, 2, 1, nws.downW, nws.downB⟩
  let _resBlock2a ← DiffiTSequential.all_equals l2 (img_size / 2) num_heads patch_size
    hidden_size hidden_channels num_groups ws
  let downsample_2 : Conv2dW := ⟨hidden_channels, hidden_channels, 3, 2, 1, nws.downW, nws.downB⟩
  let _resBlock2b ← DiffiTSequential.all_equals l3 (img_size / 4) num_heads patch_size
    hidden_size hidden_channels num_groups ws
  let downsample_3 : Conv2dW := ⟨hidden_channels, hidden_channels, 3, 2, 1, nws.downW, nws.downB⟩
  let resBlock2c ← DiffiTSequential.all_equals l4 (img_size / 8) num_heads patch_size
    hidden_size hidden_channels num_groups ws
  let upsample_1 : ConvT2dW := ⟨hidden_channels, hidden_channels, 4, 2, 1, nws.upW, nws.upB⟩
  let resBlock3up ← DiffiTSequential.all_equals l3 (img_size / 4) num_heads patch_size
    hidden_size hidden_channels num_groups ws
  let upsample_2 : ConvT2dW := ⟨hidden_channels, hidden_channels, 4, 2, 1, nws.upW, nws.upB⟩
  let resBlock2up ← DiffiTSequential.all_equals l2 (img_size / 2) num_heads patch_size
    hidden_size hidden_channels num_groups ws
  let upsample_3 : ConvT2dW := ⟨hidden_channels, hidden_channels, 4, 2, 1, nws.upW, nws.upB⟩
  let resBlock1Up ← DiffiTSequential.all_equals l1 img_size num_heads patch_size
    hidden_size hidden_channels 1 ws
  let head ← Head.init 128 3 8 nws.headGamma nws.headBeta nws.headW nws.headB
  .ok { num_classes := num_classes, tokenizer := tokenizer, t_embedder := t_embedder,
        y_embedder := y_embedder, resBlock1 := resBlock1, downsample_1 := downsample_1,
        resBlock2 := resBlock2c, downsample_2 := downsample_2, downsample_3 := downsample_3,
        upsample_1 := upsample_1, resBlock3up := resBlock3up, upsample_2 := upsample_2,
        resBlock2up := resBlock2up, upsample_3 := upsample_3, resBlock1Up := resBlock1Up,
        head := head }

/-- The stack-attribute names assigned during `ImageDiffiT.__init__`, in
source order (lines 234, 236, 238, 240, 242, 244, 246): the level-2,
level-3 and level-4 encoder stacks all overwrite `resBlock2`. -/
def ImageDiffiT.assignedStackAttrs : List String :=
  ["resBlock1", "resBlock2", "resBlock2", "resBlock2",
   "resBlock3up", "resBlock2up", "resBlock1Up"]

/-- The stack-attribute names `ImageDiffiT.forward` reads, in source order
(lines 284, 287, 290, 293, 299, 303, 307). -/
def ImageDiffiT.forwardStackAttrs : List String :=
  ["resBlock1", "resBlock2", "resBlock3", "resBlock4",
   "resBlock3up", "resBlock2up", "resBlock1Up"]

/-- `ImageDiffiT.forward` (source lines 266–313) as far as it can run:
conditioning vector, tokenizer, level-1 stack, downsample, level-2 stack,
downsample — and then line 290 reads `self.resBlock3`, an attribute
`__init__` never assigns, so the call raises `AttributeError`. -/
def ImageDiffiT.forward (m : ImageDiffiT) (p : Prim) (train : Bool)
    (rng : Nat → Bool) (x : T4) (t : T1q) (y : I1) : Except PErr T4 := do
  let xt := m.t_embedder.emb t
  let xl ← m.y_embedder.forward y train rng
  let c ← xt.addB xl
  let x1 ← m.tokenizer.forward x
  let x1 ← m.resBlock1.forward p x1 c
  let x2 ← m.downsample_1.forward x1
  let x2 ← m.resBlock2.forward p x2 c
  let _x3 ← m.downsample_2.forward x2
  .error .attributeError

/-- Modelled from the spec (§4.6, §9): the U-Net Assembly with four
distinct, independently owned resolution-level stacks.  The source's
`ImageDiffiT` cannot represent this — lines 236/238/240 alias one attribute
and `forward` reads attributes that never exist — and spec §9 records that
aliasing as a source bug, directing the four-stack wiring of §4.6 as the
intended behaviour.  This record realises that intended assembly. -/
structure UNet where
  num_classes : Nat
  tokenizer : Conv2dW
  t_embedder : TimestepEmbedder
  y_embedder : LabelEmbedder
  stack1 : DiffiTSequential
  stack2 : DiffiTSequential
  stack3 : DiffiTSequential
  stack4 : DiffiTSequential
  down1 : Conv2dW
  down2 : Conv2dW
  down3 : Conv2dW
  up1 : ConvT2dW
  up2 : ConvT2dW
  up3 : ConvT2dW
  stack3up : DiffiTSequential
  stack2up : DiffiTSequential
  stack1up : DiffiTSequential
  head : HeadW

/-- Modelled from the spec (§4.6): the intended forward pass — conditioning
vector `c = timestep_embedding(t) + label_embedding(y)` computed once;
encode `stack1 → down → stack2 → down → stack3 → down → stack4`; decode
with transposed-convolution upsampling and additive skip connections;
`Head` last.  `train`/`rng` drive the Label Embedder's stochastic dropout
exactly as in `LabelEmbedder.forward`. -/
def UNet.forwardIntended (m : UNet) (p : Prim) (train : Bool) (rng : Nat → Bool)
    (x : T4) (t : T1q) (y : I1) : Except PErr T4 := do
  let xt := m.t_embedder.emb t
  let xl ← m.y_embedder.forward y train rng
  let c ← xt.addB xl
  let x1 ← m.tokenizer.forward x
  let x1 ← m.stack1.forward p x1 c
  let x2 ← m.down1.forward x1
  let x2 ← m.stack2.forward p x2 c
  let x3 ← m.down2.forward x2
  let x3 ← m.stack3.forward p x3 c
  let x4 ← m.down3.forward x3
  let x4 ← m.stack4.forward p x4 c
  let u3 ← m.up1.forward x4
  let x3 ← x3.addB u3
  let x3 ← m.stack3up.forward p x3 c
  let u2 ← m.up2.forward x3
  let x2 ← x2.addB u2
  let x2 ← m.stack2up.forward p x2 c
  let u1 ← m.up3.forward x2
  let x1 ← x1.addB u1
  let x1 ← m.stack1up.forward p x1 c
  m.head.forward p x1

/-- The guidance combination step of `ImageDiffiT.forward_with_cfg` (source
lines 341–353): slice off the first three channels as `eps` and the rest
untouched; split `eps` batch-wise into `cond_eps` (first half) and
`uncond_eps` (second half) — unpacking `torch.split(eps, len(eps)//2)` into
exactly two tensors requires an even batch, else Python raises
`ValueError`; form `half_eps = uncond_eps + cfg_scale * (cond_eps -
uncond_eps)`, duplicate it along the batch, and re-concatenate with the
remaining channels. -/
def ImageDiffiT.cfgCombine (model_out : T4) (cfg_scale : ℚ) : Except PErr T4 := do
  let eps := model_out.sliceC 0 3
  let rest := model_out.sliceC 3 model_out.c
  let half := eps.n / 2
  if eps.n ≠ 2 * half then .error .valueError else do
  let cond_eps := eps.sliceN 0 half
  let uncond_eps := eps.sliceN half eps.n
  let half_eps : T4 :=
    ⟨uncond_eps.n, uncond_eps.c, uncond_eps.h, uncond_eps.w, fun b c i j =>
      uncond_eps.at4 b c i j + cfg_scale * (cond_eps.at4 b c i j - uncond_eps.at4 b c i j)⟩
  let eps2 ← half_eps.cat0 half_eps
  eps2.cat1 rest

/-- `ImageDiffiT.forward_with_cfg` (source lines 315–353).  The single
U-Net call `self.forward` is taken as the parameter `net`: the model's own
forward pass is settled separately (its construction and wiring are the
subject of other theorems), and the controller's dataflow is what this
definition captures — duplicate `x` and `t` batch-wise, append a batch of
Null Label Tokens (`torch.full((x.shape[0],), num_classes)`) to `y`, call
the network once on the doubled batch, and apply the guidance
combination. -/
def ImageDiffiT.forward_with_cfg (num_classes : Nat)
    (net : T4 → T1q → I1 → Except PErr T4) (x : T4) (t : T1q) (y : I1)
    (cfg_scale : ℚ) : Except PErr T4 := do
  let combined ← T4.cat0 x x
  let combined_times := T1q.cat t t
  let null_labels : I1 := ⟨x.n, fun _ => num_classes⟩
  let combined_labels := I1.cat y null_labels
  let model_out ← net combined combined_times combined_labels
  ImageDiffiT.cfgCombine model_out cfg_scale

/-! ## Helper lemmas and concrete instantiation material -/

theorem except_bind_ok {α β : Type} (a : α) (f : α → Except PErr β) :
    (Except.ok a >>= f) = f a := rfl

theorem except_bind_err {α β : Type} (e : PErr) (f : α → Except PErr β) :
    ((Except.error e : Except PErr α) >>= f) = .error e := rfl

theorem listInitM_replicate (n : Nat) (e : Except PErr DiffiTResBlock)
    (b : DiffiTResBlock) (h : e = .ok b) :
    listInitM n e = .ok (List.replicate n b) := by
  induction n with
  | zero => simp [listInitM]
  | succ k ih =>
      subst h
      simp only [listInitM, ih, List.replicate]
      rfl

/-- Whenever the `n` inner block constructions succeed,
`DiffiTSequential.all_equals` still raises `TypeError`, because the outer
call passes the fresh blocks positionally into `DiffiTResBlock.__init__` in
place of its integer parameters (source line 177). -/
theorem all_equals_typeError (n img nh ps hs ch g : Nat) (ws : BlockWeights)
    (b : DiffiTResBlock) (hb : DiffiTResBlock.init img nh ps hs ch g ws = .ok b) :
    DiffiTSequential.all_equals n img nh ps hs ch g ws = .error .typeError := by
  unfold DiffiTSequential.all_equals
  rw [listInitM_replicate n _ b hb]
  rcases n with _ | _ | _ | _ | _ | _ | _ | n <;>
    simp [List.replicate, DiffiTResBlock.initPy, pymod, PyVal.toNat, Except.bind, Bind.bind]

theorem bcastDim_self (a : Nat) : bcastDim a a = some a := by
  simp [bcastDim]

theorem bcastDim_one_right (a : Nat) : bcastDim a 1 = some a := by
  unfold bcastDim
  split_ifs <;> simp_all

/-- A trivial weight bundle for instantiating constructions on concrete
inputs (initialization values are out of the specification's scope). -/
def ws0 : BlockWeights :=
  ⟨fun _ _ _ _ => 0, fun _ => 0, fun _ => 0, fun _ => 0, fun _ _ _ _ => 0, fun _ => 0,
   fun _ _ => 0, fun tk _ => tk, fun tk => tk⟩

/-- A trivial assembly-level weight bundle. -/
def nws0 : NetWeights :=
  ⟨fun _ _ _ _ => 0, fun _ => 0, fun t => ⟨t.n, 0, fun _ _ => 0⟩, fun _ _ => 0,
   fun _ _ _ _ => 0, fun _ => 0, fun _ _ _ _ => 0, fun _ => 0,
   fun _ => 0, fun _ => 0, fun _ _ _ _ => 0, fun _ => 0⟩

/-- Trivial scalar primitives for concrete evaluation. -/
def prim0 : Prim := ⟨fun _ => 0, fun _ => 0⟩

/-- Full characterisation of the guidance combination step on an
even-batch model output: it succeeds, preserves channels and spatial
extent, computes `uncond + w·(cond − uncond)` on the first
`min 3 C` channels, duplicates that along the batch, and passes the
remaining channels through untouched. -/
theorem cfgCombine_ok (m : T4) (w : ℚ) (B : Nat) (hB : m.n = 2 * B) :
    ∃ out, ImageDiffiT.cfgCombine m w = .ok out ∧
      out.n = 2 * B ∧ out.c = m.c ∧ out.h = m.h ∧ out.w = m.w ∧
      (∀ b ch i j, b < B → ch < min 3 m.c →
        out.at4 b ch i j
          = m.at4 (B + b) ch i j + w * (m.at4 b ch i j - m.at4 (B + b) ch i j)) ∧
      (∀ b ch i j, b < B → ch < min 3 m.c →
        out.at4 (B + b) ch i j = out.at4 b ch i j) ∧
      (∀ b ch i j, 3 ≤ ch → out.at4 b ch i j = m.at4 b ch i j) := by
  obtain ⟨mn, mc, mh, mw, mf⟩ := m
  obtain rfl : mn = 2 * B := hB
  have e1 : min (0 : ℕ) (min 3 mc) = 0 := by omega
  have e2 : min mc mc = mc := min_self mc
  have e3 : min B (2 * B) = B := by omega
  have e4 : min (2 * B) (2 * B) = 2 * B := min_self _
  have e5 : 2 * B / 2 = B := by omega
  have e7 : 2 * B - B = B := by omega
  have e8 : min (0 : ℕ) B = 0 := by omega
  have e9 : B + B = 2 * B := by omega
  simp only [ImageDiffiT.cfgCombine, T4.sliceC, T4.sliceN, T4.cat0, T4.cat1,
    e1, e2, e3, e4, e5, e7, e8, e9, Nat.sub_zero, Nat.zero_add, Nat.add_zero,
    except_bind_ok, ne_eq, not_true_eq_false, if_false, and_self, if_true,
    not_false_eq_true, and_true, true_and]
  refine ⟨_, rfl, ?_, ?_, ?_, ?_, ?_, ?_, ?_⟩
  · rfl
  · dsimp only
    omega
  · rfl
  · rfl
  · intro b ch i j hb hch
    dsimp only
    rw [if_pos hch, if_pos hb]
  · intro b ch i j hb hch
    dsimp only
    rw [if_pos hch, if_pos hch, if_pos hb,
      if_neg (by omega : ¬ B + b < B), Nat.add_sub_cancel_left]
  · intro b ch i j hch
    dsimp only
    rw [if_neg (by omega : ¬ ch < min 3 mc)]
    congr 1
    omega

/-! ## Claim theorems -/

/-- C10: a `DiffiTSequential` constructed with zero blocks is the identity
on the feature map — for every input `x` and conditioning vector `c`,
`forward(x, c)` returns `x` unchanged. -/
theorem diffiTSequential_zero_blocks_identity (p : Prim) (x : T4) (c : T2) :
    (DiffiTSequential.mk []).forward p x c = .ok x := rfl

/-- C8: with the stochastic label dropout inactive (`train = false`), two
forward calls of the U-Net with identical weights and identical inputs are
equal — in particular the outcome does not depend on the random dropout
draws, the only stochastic input of the pipeline. -/
theorem unet_forward_deterministic (m : UNet) (p : Prim) (x : T4) (t : T1q)
    (y : I1) (rng rng' : Nat → Bool) :
    m.forwardIntended p false rng x t y = m.forwardIntended p false rng' x t y := rfl

/-- C2: `DiffiTSequential.all_equals(n, ...)` with the repository's default
block configuration raises `TypeError` for every `n`, instead of returning a
container of `n` blocks: source line 177 constructs
`DiffiTResBlock(*blocks)` where its own docstring promises a
`DiffiTSequential`. -/
theorem all_equals_never_builds_a_stack (n : Nat) (ws : BlockWeights) :
    DiffiTSequential.all_equals n 64 16 2 1152 128 8 ws = .error .typeError :=
  all_equals_typeError n 64 16 2 1152 128 8 ws _ rfl

/-- C1: the U-Net forward call can never complete: with the repository's
own test configuration (`ImageDiffiT(img_size=64)`, source line 376)
construction already raises `TypeError` inside
`DiffiTSequential.all_equals`, and the forward pass reads the stack
attributes `resBlock3` and `resBlock4` that `__init__` never assigns
(it writes `resBlock2` three times), so no input triple can produce the
claimed `(B, 3, S, S)` output. -/
theorem imageDiffiT_forward_cannot_complete (ws : BlockWeights) (nws : NetWeights) :
    ImageDiffiT.init 64 4 4 4 4 2 1000 (1 / 10) 1152 3 128 16 8 ws nws
      = .error .typeError ∧
    "resBlock3" ∉ ImageDiffiT.assignedStackAttrs ∧
    "resBlock4" ∉ ImageDiffiT.assignedStackAttrs ∧
    "resBlock3" ∈ ImageDiffiT.forwardStackAttrs ∧
    "resBlock4" ∈ ImageDiffiT.forwardStackAttrs := by
  refine ⟨?_, by decide, by decide, by decide, by decide⟩
  have h1 : DiffiTSequential.all_equals 4 64 16 2 1152 128 1 ws = .error .typeError :=
    all_equals_typeError 4 64 16 2 1152 128 1 ws _ rfl
  simp [ImageDiffiT.init, natAssertDiv, h1, Except.bind, Bind.bind]

/-- C6: the divisibility validation at construction: a Hybrid Residual
Block with `hidden_size=100, num_heads=7` fails with the configuration
assert and with `hidden_size=128, num_heads=8` succeeds; the U-Net Assembly
likewise rejects `hidden_size % num_heads ≠ 0` before building anything —
but with both divisibility invariants satisfied the assembly still fails
(with `TypeError`, from the `all_equals` slip), so its construction never
succeeds. -/
theorem construction_divisibility_validation (ws : BlockWeights) (nws : NetWeights) :
    DiffiTResBlock.init 8 7 2 100 128 8 ws = .error .configurationError ∧
    (∃ b, DiffiTResBlock.init 8 8 2 128 128 8 ws = .ok b) ∧
    ImageDiffiT.init 8 1 1 1 1 2 10 0 100 3 128 7 8 ws nws
      = .error .configurationError ∧
    ImageDiffiT.init 8 1 1 1 1 2 10 0 128 3 128 8 8 ws nws
      = .error .typeError := by
  refine ⟨rfl, ⟨_, rfl⟩, rfl, ?_⟩
  have h1 : DiffiTSequential.all_equals 1 8 8 2 128 128 1 ws = .error .typeError :=
    all_equals_typeError 1 8 8 2 128 128 1 ws _ rfl
  simp [ImageDiffiT.init, natAssertDiv, h1, Except.bind, Bind.bind]

/-- C5: in the guidance combination of `forward_with_cfg`, writing the
model output's batch as `2B`, the first `min 3 C` channels of the result
are `half_eps = uncond_eps + w·(cond_eps − uncond_eps)` (with `cond_eps`
the first and `uncond_eps` the second batch half), duplicated along the
batch; the remaining channels pass through untouched; and `w = 1` makes the
first half equal the conditional-only prediction `cond_eps`. -/
theorem cfg_guidance_interpolation (m : T4) (w : ℚ) (B : Nat) (hB : m.n = 2 * B) :
    ∃ out, ImageDiffiT.cfgCombine m w = .ok out ∧
      out.n = 2 * B ∧ out.c = m.c ∧ out.h = m.h ∧ out.w = m.w ∧
      (∀ b ch i j, b < B → ch < min 3 m.c →
        out.at4 b ch i j
          = m.at4 (B + b) ch i j + w * (m.at4 b ch i j - m.at4 (B + b) ch i j)) ∧
      (∀ b ch i j, b < B → ch < min 3 m.c →
        out.at4 (B + b) ch i j = out.at4 b ch i j) ∧
      (∀ b ch i j, 3 ≤ ch → out.at4 b ch i j = m.at4 b ch i j) ∧
      (w = 1 → ∀ b ch i j, b < B → ch < min 3 m.c →
        out.at4 b ch i j = m.at4 b ch i j) := by
  obtain ⟨out, h0, h1, h2, h3, h4, h5, h6, h7⟩ := cfgCombine_ok m w B hB
  refine ⟨out, h0, h1, h2, h3, h4, h5, h6, h7, ?_⟩
  intro hw b ch i j hb hch
  rw [h5 b ch i j hb hch, hw]
  ring

/-- A concrete even-batch model output for instantiating the guidance
   combination. -/
def m5 : T4 := ⟨2, 3, 1, 1, fun b _ _ _ => (b : ℚ)⟩

/-- Witness for C5 at `m5` with `B = 1` and `w = 2`. -/
theorem cfg_guidance_interpolation_witness :
    ∃ out, ImageDiffiT.cfgCombine m5 2 = .ok out ∧
      out.n = 2 * 1 ∧ out.c = m5.c ∧ out.h = m5.h ∧ out.w = m5.w ∧
      (∀ b ch i j, b < 1 → ch < min 3 m5.c →
        out.at4 b ch i j
          = m5.at4 (1 + b) ch i j + 2 * (m5.at4 b ch i j - m5.at4 (1 + b) ch i j)) ∧
      (∀ b ch i j, b < 1 → ch < min 3 m5.c →
        out.at4 (1 + b) ch i j = out.at4 b ch i j) ∧
      (∀ b ch i j, 3 ≤ ch → out.at4 b ch i j = m5.at4 b ch i j) ∧
      ((2 : ℚ) = 1 → ∀ b ch i j, b < 1 → ch < min 3 m5.c →
        out.at4 b ch i j = m5.at4 b ch i j) :=
  cfg_guidance_interpolation m5 2 1 (by decide)

/-- C4: the guidance controller makes a single network call whose
arguments are exactly `x` and `t` duplicated along the batch and a label
batch whose first `B` entries are `y` and whose last `B` entries are the
Null Label Token `num_classes`; whenever that call returns an output of
the documented shape, `forward_with_cfg` returns a tensor of shape
`(2B, C, H, W)`. -/
theorem forward_with_cfg_batch_doubling (ncls : Nat)
    (net : T4 → T1q → I1 → Except PErr T4) (x : T4) (t : T1q) (y : I1)
    (w : ℚ) (m : T4)
    (hy : y.n = x.n)
    (hnet : net x.dup0 (t.cat t) (y.cat ⟨x.n, fun _ => ncls⟩) = .ok m)
    (hmn : m.n = x.n + x.n) (hmc : m.c = x.c) (hmh : m.h = x.h) (hmw : m.w = x.w) :
    (∀ i, i < x.n → (y.cat ⟨x.n, fun _ => ncls⟩).at1 i = y.at1 i) ∧
    (∀ i, x.n ≤ i → i < x.n + x.n → (y.cat ⟨x.n, fun _ => ncls⟩).at1 i = ncls) ∧
    ∃ out, ImageDiffiT.forward_with_cfg ncls net x t y w = .ok out ∧
      out.n = x.n + x.n ∧ out.c = x.c ∧ out.h = x.h ∧ out.w = x.w := by
  obtain ⟨out, hok, hn, hc2, hh2, hw2, -, -, -⟩ :=
    cfgCombine_ok m w x.n (by omega)
  refine ⟨?_, ?_, out, ?_, by omega, ?_, ?_, ?_⟩
  · intro i hi
    dsimp only [I1.cat]
    rw [if_pos (by omega : i < y.n)]
  · intro i hi1 hi2
    dsimp only [I1.cat]
    rw [if_neg (by omega : ¬ i < y.n)]
  · simp only [ImageDiffiT.forward_with_cfg, T4.cat0_self, except_bind_ok, hnet]
    exact hok
  · rw [hc2, hmc]
  · rw [hh2, hmh]
  · rw [hw2, hmw]

/-- Concrete inputs for the guidance-controller witness. -/
def x4 : T4 := ⟨1, 3, 1, 1, fun _ _ _ _ => 0⟩

/-- Concrete timestep batch for the guidance-controller witness. -/
def t4 : T1q := ⟨1, fun _ => 0⟩

/-- Concrete label batch for the guidance-controller witness. -/
def y4 : I1 := ⟨1, fun _ => 3⟩

/-- A concrete stand-in network returning its input unchanged. -/
def net4 : T4 → T1q → I1 → Except PErr T4 := fun a _ _ => .ok a

/-- Witness for C4 at concrete inputs with `net4` as the network. -/
theorem forward_with_cfg_batch_doubling_witness :
    (∀ i, i < x4.n → (y4.cat ⟨x4.n, fun _ => 5⟩).at1 i = y4.at1 i) ∧
    (∀ i, x4.n ≤ i → i < x4.n + x4.n → (y4.cat ⟨x4.n, fun _ => 5⟩).at1 i = 5) ∧
    ∃ out, ImageDiffiT.forward_with_cfg 5 net4 x4 t4 y4 0 = .ok out ∧
      out.n = x4.n + x4.n ∧ out.c = x4.c ∧ out.h = x4.h ∧ out.w = x4.w :=
  forward_with_cfg_batch_doubling 5 net4 x4 t4 y4 0 x4.dup0 rfl rfl rfl rfl rfl rfl

/-- C7 counterexample: a block configured for 8×8 feature maps
(`img_size = 8`, so the original `H = W = 8`), given 4 tokens of dimension
`p²·c = 4`, reconstructs a 4×4 output — the reconstructed spatial size
disagrees with the original 8×8, yet `unpatchify` returns successfully
instead of failing: no comparison with the original size happens inside
`unpatchify`. -/
theorem unpatchify_ignores_original_size :
    ∃ blk, DiffiTResBlock.init 8 1 2 4 1 1 ws0 = .ok blk ∧
      blk.x_embedder.img_size = 8 ∧
      (blk.unpatchify ⟨1, 4, 4, fun _ _ _ => 0⟩).map (fun out => (out.h, out.w))
        = .ok (4, 4) ∧
      (4 : Nat) ≠ 8 := by
  have h4 : Nat.sqrt 4 = 2 := by rw [show (4 : Nat) = 2 * 2 by norm_num, Nat.sqrt_eq]
  refine ⟨_, rfl, rfl, ?_, by decide⟩
  simp [DiffiTResBlock.unpatchify, h4, Except.map]

/-- C7 (amended): `unpatchify` on a token tensor `(batch, T, D)` fails with
the shape-mismatch assert when `T` is not a perfect square, and when
`T = h²` and `D = p²·channels` it returns a tensor of shape
`(batch, channels, h·p, h·p)`; it performs no check against the original
`H×W` (a disagreement only surfaces later, at the residual addition in the
block's forward). -/
theorem unpatchify_shape_behaviour (blk : DiffiTResBlock) (x : T3) :
    (Nat.sqrt x.t * Nat.sqrt x.t ≠ x.t →
      blk.unpatchify x = .error .shapeMismatchError) ∧
    (∀ h : Nat, h * h = x.t →
      x.d = blk.x_embedder.patch_size * blk.x_embedder.patch_size * blk.channels →
      ∃ out, blk.unpatchify x = .ok out ∧ out.n = x.n ∧ out.c = blk.channels ∧
        out.h = h * blk.x_embedder.patch_size ∧
        out.w = h * blk.x_embedder.patch_size) := by
  constructor
  · intro hsq
    simp only [DiffiTResBlock.unpatchify]
    rw [if_pos hsq]
  · intro h hh hd
    have hs : Nat.sqrt x.t = h := by rw [← hh, Nat.sqrt_eq]
    have htot : x.t * x.d =
        Nat.sqrt x.t * Nat.sqrt x.t * blk.x_embedder.patch_size *
          blk.x_embedder.patch_size * blk.channels := by
      rw [hs, ← hh, hd]; ring
    simp only [DiffiTResBlock.unpatchify]
    rw [if_neg (by rw [hs, hh]; simp), if_neg (by rw [htot]; simp)]
    refine ⟨_, rfl, rfl, rfl, ?_, ?_⟩ <;> simp [hs]

/-- A concrete hybrid residual block (the value
`DiffiTResBlock.init 8 1 2 4 1 1 ws0` produces), used to instantiate
theorems at a concrete input. -/
def blk0 : DiffiTResBlock :=
  ⟨1, ⟨1, 1, ws0.gnGamma, ws0.gnBeta⟩, ⟨1, 1, 3, 1, 1, ws0.convW, ws0.convB⟩,
   ws0.diffit, ⟨8, 2, 1, 4, ws0.embW, ws0.embB⟩, 2, 16,
   ⟨1, 16, 4, fun _ => ws0.pos⟩, ws0.final⟩

/-- Witness for C7's amended theorem at `blk0` and a concrete 4-token
tensor. -/
theorem unpatchify_shape_behaviour_witness :
    ∃ out, blk0.unpatchify ⟨1, 4, 4, fun _ _ _ => 0⟩ = .ok out ∧
      out.n = 1 ∧ out.c = blk0.channels ∧
      out.h = 2 * blk0.x_embedder.patch_size ∧
      out.w = 2 * blk0.x_embedder.patch_size :=
  (unpatchify_shape_behaviour blk0 ⟨1, 4, 4, fun _ _ _ => 0⟩).2 2 (by decide) (by decide)

/-- Source line 247 of `ImageDiffiT.__init__`: `self.head = Head()` — the
head-construction expression passes no configuration, so every parameter is
the source-level default `in_channels=128, out_channels=3, num_groups=8`,
whatever `hidden_channels`, `channels` and `num_groups` were configured. -/
def ImageDiffiT.headConstruction (_hidden_channels _channels _num_groups : Nat)
    (nws : NetWeights) : Except PErr HeadW :=
  Head.init 128 3 8 nws.headGamma nws.headBeta nws.headW nws.headB

/-- C9: the U-Net's head is built with the fixed defaults
`(in_channels=128, out_channels=3, num_groups=8)` for every configuration;
consequently the head's forward pass succeeds exactly on feature maps with
128 channels, and its output always has exactly 3 channels (same batch and
spatial extent). -/
theorem head_fixed_defaults (nws : NetWeights) (p : Prim) (hw : HeadW) (x : T4)
    (hinit : Head.init 128 3 8 nws.headGamma nws.headBeta nws.headW nws.headB = .ok hw)
    (hxh : 0 < x.h) (hxw : 0 < x.w) :
    (∀ hc ch g, ImageDiffiT.headConstruction hc ch g nws
        = Head.init 128 3 8 nws.headGamma nws.headBeta nws.headW nws.headB) ∧
    ((hw.forward p x).isOk ↔ x.c = 128) ∧
    (∀ out, hw.forward p x = .ok out →
      out.c = 3 ∧ out.n = x.n ∧ out.h = x.h ∧ out.w = x.w) := by
  have hhw : hw = ⟨⟨8, 128, nws.headGamma, nws.headBeta⟩,
      ⟨128, 3, 3, 1, 1, nws.headW, nws.headB⟩⟩ := by
    simp only [Head.init] at hinit
    rw [if_neg (by decide), if_neg (by decide)] at hinit
    exact (Except.ok.injEq _ _ ▸ hinit).symm
  subst hhw
  have hh1 : convOutDim x.h 3 1 1 = x.h := by unfold convOutDim; omega
  have hw1 : convOutDim x.w 3 1 1 = x.w := by unfold convOutDim; omega
  have herr : ¬x.c = 128 →
      HeadW.forward p ⟨⟨8, 128, nws.headGamma, nws.headBeta⟩,
        ⟨128, 3, 3, 1, 1, nws.headW, nws.headB⟩⟩ x = .error .shapeMismatchError := by
    intro hc
    simp only [HeadW.forward]
    rw [GroupNormW.forward, if_pos (by simpa using hc)]
    rfl
  have hfun : x.c = 128 →
      HeadW.forward p ⟨⟨8, 128, nws.headGamma, nws.headBeta⟩,
        ⟨128, 3, 3, 1, 1, nws.headW, nws.headB⟩⟩ x
      = .ok (Conv2dW.core ⟨128, 3, 3, 1, 1, nws.headW, nws.headB⟩
             (GroupNormW.core p ⟨8, 128, nws.headGamma, nws.headBeta⟩ x)) := by
    intro hc
    simp only [HeadW.forward]
    rw [GroupNormW.forward, if_neg (by simp [hc]), except_bind_ok]
    rw [Conv2dW.forward, if_neg (by simp [GroupNormW.core, hc]),
      if_neg (by simp only [GroupNormW.core]; omega)]
  refine ⟨fun _ _ _ => rfl, ?_, ?_⟩
  · constructor
    · intro hok
      by_contra hc
      rw [herr hc] at hok
      simp [Except.isOk, Except.toBool] at hok
    · intro hc
      rw [hfun hc]
      rfl
  · intro out hfwd
    rcases eq_or_ne x.c 128 with hc | hc
    · rw [hfun hc] at hfwd
      injection hfwd with h
      subst h
      refine ⟨rfl, rfl, ?_, ?_⟩
      · simp only [Conv2dW.core, GroupNormW.core]
        exact hh1
      · simp only [Conv2dW.core, GroupNormW.core]
        exact hw1
    · rw [herr hc] at hfwd
      exact absurd hfwd (by simp)

/-- The head weights `Head.init 128 3 8` constructs from `nws0`. -/
def hw0 : HeadW :=
  ⟨⟨8, 128, nws0.headGamma, nws0.headBeta⟩, ⟨128, 3, 3, 1, 1, nws0.headW, nws0.headB⟩⟩

/-- Concrete 128-channel input for the head witness. -/
def x9 : T4 := ⟨1, 128, 1, 1, fun _ _ _ _ => 0⟩

/-- Witness for C9 at `hw0` and a concrete 128-channel input. -/
theorem head_fixed_defaults_witness :
    (∀ hc ch g, ImageDiffiT.headConstruction hc ch g nws0
        = Head.init 128 3 8 nws0.headGamma nws0.headBeta nws0.headW nws0.headB) ∧
    ((hw0.forward prim0 x9).isOk ↔ x9.c = 128) ∧
    (∀ out, hw0.forward prim0 x9 = .ok out →
      out.c = 3 ∧ out.n = x9.n ∧ out.h = x9.h ∧ out.w = x9.w) :=
  head_fixed_defaults nws0 prim0 hw0 x9 rfl (by decide) (by decide)

/-- C3: for every validly constructed Hybrid Residual Block (token-mixer
and output-projection collaborators meeting their documented shape
contracts) and every input of the configured shape, the forward pass
returns `unpatchify(final(diffit(patchify(x') + pos, c))) + x'` where
`x' = conv(silu(groupnorm(x)))` — the residual is added against the
post-convolution tensor `x'`, not the original input — and the output
shape equals the input shape. -/
theorem resBlock_forward_residual_and_shape
    (S nh p hs ch g : Nat) (ws : BlockWeights) (blk : DiffiTResBlock)
    (pr : Prim) (x : T4) (c : T2)
    (hinit : DiffiTResBlock.init S nh p hs ch g ws = .ok blk)
    (hdvd : p ∣ S) (hS : 0 < S)
    (hmix : ∀ tk ctx, (ws.diffit tk ctx).n = tk.n ∧ (ws.diffit tk ctx).t = tk.t ∧
      (ws.diffit tk ctx).d = tk.d)
    (hfin : ∀ tk, (ws.final tk).n = tk.n ∧ (ws.final tk).t = tk.t ∧
      (ws.final tk).d = p * p * ch)
    (hxc : x.c = ch) (hxh : x.h = S) (hxw : x.w = S) :
    ∃ xg xconv xp0 xpat u out,
      blk.groupNorm.forward pr x = .ok xg ∧
      blk.conv2d.forward (siluT4 pr xg) = .ok xconv ∧
      blk.x_embedder.forward xconv = .ok xp0 ∧
      xp0.addB blk.pos_embed = .ok xpat ∧
      blk.unpatchify (blk.final (blk.diffit xpat c)) = .ok u ∧
      u.addB xconv = .ok out ∧
      blk.forward pr x c = .ok out ∧
      out.n = x.n ∧ out.c = x.c ∧ out.h = x.h ∧ out.w = x.w := by
  -- extract the constructed block from `hinit`
  have hnh : nh ≠ 0 := by
    rintro rfl
    simp [DiffiTResBlock.init, DiffiTResBlock.initPy, pymod,
      except_bind_ok, except_bind_err] at hinit
  have hr1 : hs % nh = 0 := by
    by_contra hr
    simp [DiffiTResBlock.init, DiffiTResBlock.initPy, pymod, hnh, hr,
      except_bind_ok, except_bind_err] at hinit
  have hg : g ≠ 0 := by
    rintro rfl
    simp [DiffiTResBlock.init, DiffiTResBlock.initPy, pymod, hnh, hr1,
      except_bind_ok, except_bind_err] at hinit
  have hr2 : ch % g = 0 := by
    by_contra hr
    simp [DiffiTResBlock.init, DiffiTResBlock.initPy, pymod, hnh, hr1, hg, hr,
      except_bind_ok, except_bind_err] at hinit
  have hblk : blk = ⟨ch, ⟨g, ch, ws.gnGamma, ws.gnBeta⟩,
      ⟨ch, ch, 3, 1, 1, ws.convW, ws.convB⟩, ws.diffit,
      ⟨S, p, ch, hs, ws.embW, ws.embB⟩, p, S / p * (S / p),
      ⟨1, S / p * (S / p), hs, fun _ => ws.pos⟩, ws.final⟩ := by
    simp [DiffiTResBlock.init, DiffiTResBlock.initPy, pymod, PyVal.toNat,
      hnh, hr1, hg, hr2, except_bind_ok, except_bind_err,
      PatchEmbedW.num_patches, PatchEmbedW.grid] at hinit
    exact hinit.symm
  subst hblk
  have hp0 : 0 < p := Nat.pos_of_dvd_of_pos hdvd hS
  have hgrid : S / p * p = S := Nat.div_mul_cancel hdvd
  have hcout : convOutDim S 3 1 1 = S := by unfold convOutDim; omega
  -- step 1: group normalisation
  have hA : GroupNormW.forward pr ⟨g, ch, ws.gnGamma, ws.gnBeta⟩ x
      = .ok (GroupNormW.core pr ⟨g, ch, ws.gnGamma, ws.gnBeta⟩ x) := by
    rw [GroupNormW.forward, if_neg (by simp [hxc])]
  -- step 2: the 3×3 convolution after SiLU
  have hB : Conv2dW.forward ⟨ch, ch, 3, 1, 1, ws.convW, ws.convB⟩
      (siluT4 pr (GroupNormW.core pr ⟨g, ch, ws.gnGamma, ws.gnBeta⟩ x))
      = .ok (Conv2dW.core ⟨ch, ch, 3, 1, 1, ws.convW, ws.convB⟩
          (siluT4 pr (GroupNormW.core pr ⟨g, ch, ws.gnGamma, ws.gnBeta⟩ x))) := by
    rw [Conv2dW.forward, if_neg (by simp [siluT4, GroupNormW.core, hxc]),
      if_neg (by simp only [siluT4, GroupNormW.core]; omega)]
  set xconv := Conv2dW.core ⟨ch, ch, 3, 1, 1, ws.convW, ws.convB⟩
    (siluT4 pr (GroupNormW.core pr ⟨g, ch, ws.gnGamma, ws.gnBeta⟩ x)) with hxconv
  have hxcn : xconv.n = x.n := rfl
  have hxcc : xconv.c = ch := rfl
  have hxch : xconv.h = S := by
    show convOutDim x.h 3 1 1 = S
    rw [hxh, hcout]
  have hxcw : xconv.w = S := by
    show convOutDim x.w 3 1 1 = S
    rw [hxw, hcout]
  -- step 3: patch embedding
  have hC : PatchEmbedW.forward ⟨S, p, ch, hs, ws.embW, ws.embB⟩ xconv
      = .ok (PatchEmbedW.core ⟨S, p, ch, hs, ws.embW, ws.embB⟩ xconv) := by
    rw [PatchEmbedW.forward, if_neg (by simp [hxch, hxcw]), if_neg (by simp [hxcc])]
  set xp0 := PatchEmbedW.core ⟨S, p, ch, hs, ws.embW, ws.embB⟩ xconv with hxp0
  have hxp0n : xp0.n = x.n := rfl
  have hxp0t : xp0.t = S / p * (S / p) := rfl
  have hxp0d : xp0.d = hs := rfl
  -- step 4: positional-table addition (batch dimension broadcast from 1)
  have hD : xp0.addB ⟨1, S / p * (S / p), hs, fun _ => ws.pos⟩
      = .ok ⟨x.n, S / p * (S / p), hs, fun bb tt dd =>
          xp0.at3 (bidx xp0.n bb) (bidx xp0.t tt) (bidx xp0.d dd)
          + ws.pos (bidx (S / p * (S / p)) tt) (bidx hs dd)⟩ := by
    show T3.addB _ _ = _
    rw [T3.addB]
    simp only [hxp0n, hxp0t, hxp0d]
    rw [bcastDim_one_right, bcastDim_self, bcastDim_self]
  set xpat : T3 := ⟨x.n, S / p * (S / p), hs, fun bb tt dd =>
    xp0.at3 (bidx xp0.n bb) (bidx xp0.t tt) (bidx xp0.d dd)
    + ws.pos (bidx (S / p * (S / p)) tt) (bidx hs dd)⟩ with hxpat
  -- step 5: token mixing, projection, unpatchify
  set tokens := ws.final (ws.diffit xpat c) with htokens
  have htn : tokens.n = x.n := by
    rw [htokens, (hfin _).1, (hmix _ _).1, hxpat]
  have htt : tokens.t = S / p * (S / p) := by
    rw [htokens, (hfin _).2.1, (hmix _ _).2.1, hxpat]
  have htd : tokens.d = p * p * ch := (hfin _).2.2
  have hsq : Nat.sqrt tokens.t = S / p := by rw [htt, Nat.sqrt_eq]
  have htot : tokens.t * tokens.d
      = Nat.sqrt tokens.t * Nat.sqrt tokens.t * p * p * ch := by
    rw [hsq, htt, htd]; ring
  have hF : DiffiTResBlock.unpatchify ⟨ch, ⟨g, ch, ws.gnGamma, ws.gnBeta⟩,
      ⟨ch, ch, 3, 1, 1, ws.convW, ws.convB⟩, ws.diffit,
      ⟨S, p, ch, hs, ws.embW, ws.embB⟩, p, S / p * (S / p),
      ⟨1, S / p * (S / p), hs, fun _ => ws.pos⟩, ws.final⟩ tokens
      = .ok ⟨tokens.n, ch, Nat.sqrt tokens.t * p, Nat.sqrt tokens.t * p,
          fun b cc i j =>
            tokens.at3 b (i / p * Nat.sqrt tokens.t + j / p)
              ((i % p * p + j % p) * ch + cc)⟩ := by
    simp only [DiffiTResBlock.unpatchify]
    rw [if_neg (by rw [hsq, htt]; simp), if_neg (by rw [htot]; simp)]
  set u : T4 := ⟨tokens.n, ch, Nat.sqrt tokens.t * p, Nat.sqrt tokens.t * p,
    fun b cc i j =>
      tokens.at3 b (i / p * Nat.sqrt tokens.t + j / p)
        ((i % p * p + j % p) * ch + cc)⟩ with hu
  have hun : u.n = x.n := htn
  have huh : u.h = S := by
    show Nat.sqrt tokens.t * p = S
    rw [hsq, hgrid]
  -- step 6: the residual addition against the post-convolution tensor
  have hG : u.addB xconv = .ok ⟨x.n, ch, S, S, fun bb cc i j =>
      u.at4 (bidx u.n bb) (bidx u.c cc) (bidx u.h i) (bidx u.w j)
      + xconv.at4 (bidx xconv.n bb) (bidx xconv.c cc) (bidx xconv.h i)
          (bidx xconv.w j)⟩ := by
    rw [T4.addB]
    have h1 : bcastDim u.n xconv.n = some x.n := by rw [hun, hxcn, bcastDim_self]
    have h2 : bcastDim u.c xconv.c = some ch := by rw [hxcc]; exact bcastDim_self ch
    have h3 : bcastDim u.h xconv.h = some S := by rw [huh, hxch, bcastDim_self]
    have h4 : bcastDim u.w xconv.w = some S := by
      show bcastDim (Nat.sqrt tokens.t * p) xconv.w = some S
      rw [hsq, hgrid, hxcw, bcastDim_self]
    rw [h1, h2, h3, h4]
  refine ⟨_, xconv, xp0, xpat, u, _, hA, hB, hC, hD, hF, hG, ?_, rfl, hxc.symm, ?_, ?_⟩
  · show (do
      let xg ← GroupNormW.forward pr ⟨g, ch, ws.gnGamma, ws.gnBeta⟩ x
      let xc ← Conv2dW.forward ⟨ch, ch, 3, 1, 1, ws.convW, ws.convB⟩ (siluT4 pr xg)
      let xq ← PatchEmbedW.forward ⟨S, p, ch, hs, ws.embW, ws.embB⟩ xc
      let xpa ← xq.addB ⟨1, S / p * (S / p), hs, fun _ => ws.pos⟩
      let uu ← DiffiTResBlock.unpatchify _ (ws.final (ws.diffit xpa c))
      uu.addB xc) = _
    rw [hA, except_bind_ok, hB, except_bind_ok, hC, except_bind_ok, hD,
      except_bind_ok, ← htokens, hF, except_bind_ok, hG]
  · show S = x.h
    exact hxh.symm
  · show S = x.w
    exact hxw.symm

/-- Weights for the residual-block witness: the token mixer is the
identity and the projection maps tokens to dimension `p²·c = 1`. -/
def ws3 : BlockWeights :=
  ⟨fun _ _ _ _ => 0, fun _ => 0, fun _ => 0, fun _ => 0, fun _ _ _ _ => 0, fun _ => 0,
   fun _ _ => 0, fun tk _ => tk, fun tk => ⟨tk.n, tk.t, 1, tk.at3⟩⟩

/-- The block `DiffiTResBlock.init 1 1 1 1 1 1 ws3` constructs. -/
def blk3 : DiffiTResBlock :=
  ⟨1, ⟨1, 1, ws3.gnGamma, ws3.gnBeta⟩, ⟨1, 1, 3, 1, 1, ws3.convW, ws3.convB⟩,
   ws3.diffit, ⟨1, 1, 1, 1, ws3.embW, ws3.embB⟩, 1, 1,
   ⟨1, 1, 1, fun _ => ws3.pos⟩, ws3.final⟩

/-- Concrete input feature map for the residual-block witness. -/
def x3 : T4 := ⟨1, 1, 1, 1, fun _ _ _ _ => 0⟩

/-- Concrete conditioning vector for the residual-block witness. -/
def c3 : T2 := ⟨1, 1, fun _ _ => 0⟩

/-- Witness for C3 at a concrete 1×1×1×1 configuration. -/
theorem resBlock_forward_residual_and_shape_witness :
    ∃ xg xconv xp0 xpat u out,
      blk3.groupNorm.forward prim0 x3 = .ok xg ∧
      blk3.conv2d.forward (siluT4 prim0 xg) = .ok xconv ∧
      blk3.x_embedder.forward xconv = .ok xp0 ∧
      xp0.addB blk3.pos_embed = .ok xpat ∧
      blk3.unpatchify (blk3.final (blk3.diffit xpat c3)) = .ok u ∧
      u.addB xconv = .ok out ∧
      blk3.forward prim0 x3 c3 = .ok out ∧
      out.n = x3.n ∧ out.c = x3.c ∧ out.h = x3.h ∧ out.w = x3.w :=
  resBlock_forward_residual_and_shape 1 1 1 1 1 1 ws3 blk3 prim0 x3 c3 rfl
    (by decide) (by decide) (fun _ _ => ⟨rfl, rfl, rfl⟩) (fun _ => ⟨rfl, rfl, rfl⟩)
    rfl rfl rfl
